import Mathlib

/-!
Shallow embedding of `src/utils/pdfGenerator.js` from the img2pdf repository.

The source file contains two versions of `generatePdf`:
* version 1 (lines 57-157): no input validation, returns a blob;
* version 2 (lines 227-402): validates inputs, throws `PdfGenerationError`
  on bad input, skips images with non-positive intrinsic dimensions, and
  returns `{ blob, pageCount }`.

JavaScript numbers are modelled by exact rationals (`ℚ`); rows/cols by `ℤ`.
The opaque `dataUrl` payload and `name` of an image are modelled by natural
number identifiers.  The jsPDF document is modelled by the trace of drawing
instructions sent to it: `addPage`, `addImage` and `line` calls.  Color,
line-width and dash-pattern commands are not part of the trace model.
-/

namespace Img2Pdf

/-- `MARGIN_MM` constant (line 4 / 161). -/
def MARGIN_MM : ℚ := 6

/-- `GAP_MM` constant (line 5 / 162). -/
def GAP_MM : ℚ := 2

/-- `PX_PER_MM` constant used by `calculateImageRenderSize` (line 33 / 190):
3.78 pixels per millimetre. -/
def PX_PER_MM : ℚ := 189 / 50

/-- A4 page size in mm. -/
structure PageSize where
  width : ℚ
  height : ℚ
deriving DecidableEq

/-- `A4_PORTRAIT` (line 8 / 165). -/
def A4_PORTRAIT : PageSize := ⟨210, 297⟩

/-- `A4_LANDSCAPE` (line 9 / 166). -/
def A4_LANDSCAPE : PageSize := ⟨297, 210⟩

/-- Page orientation selector. -/
inductive Orient where
  | portrait : Orient
  | landscape : Orient
deriving DecidableEq

/-- Separator / grid line style: the `gridEnabled` value of the source,
which is checked as `gridEnabled && gridEnabled !== 'none'` and
`gridEnabled === 'dashed'`. -/
inductive GridStyle where
  | none : GridStyle
  | solid : GridStyle
  | dashed : GridStyle
deriving DecidableEq

/-- One input image: opaque payload (`dataUrl`), identity (`name`) and
intrinsic pixel dimensions `wPx`, `hPx`. -/
structure ImgIn where
  dataUrl : ℕ
  name : ℕ
  wPx : ℚ
  hPx : ℚ
deriving DecidableEq

/-- Argument record of `generatePdf` (both versions); `orient` models the
source's `orientation` argument. -/
structure GenArgs where
  images : List ImgIn
  rows : ℤ
  cols : ℤ
  orient : Orient
  gridStyle : GridStyle
deriving DecidableEq

/-- A drawing instruction sent to the jsPDF document. -/
inductive Instr where
  | addPage : Instr
  | addImage (payload : ℕ) (x y w h : ℚ) : Instr
  | drawLine (x1 y1 x2 y2 : ℚ) : Instr
deriving DecidableEq

/-- `orientation === 'landscape' ? A4_LANDSCAPE : A4_PORTRAIT`
(line 66 / 249). -/
def pageSizeOf (o : Orient) : PageSize :=
  if o = Orient.landscape then A4_LANDSCAPE else A4_PORTRAIT

/-- `usableW = pageW - 2 * MARGIN_MM` (line 76 / 267). -/
def usableWOf (o : Orient) : ℚ := (pageSizeOf o).width - 2 * MARGIN_MM

/-- `usableH = pageH - 2 * MARGIN_MM` (line 77 / 268). -/
def usableHOf (o : Orient) : ℚ := (pageSizeOf o).height - 2 * MARGIN_MM

/-- `cellW = (usableW - (cols - 1) * GAP_MM) / cols` (line 78 / 269). -/
def cellWOf (o : Orient) (cols : ℤ) : ℚ :=
  (usableWOf o - ((cols : ℚ) - 1) * GAP_MM) / (cols : ℚ)

/-- `cellH = (usableH - (rows - 1) * GAP_MM) / rows` (line 79 / 270). -/
def cellHOf (o : Orient) (rows : ℤ) : ℚ :=
  (usableHOf o - ((rows : ℚ) - 1) * GAP_MM) / (rows : ℚ)

/-- `calculateImageRenderSize` (lines 31-52 / 188-209): scale to fit the
cell, clamped to `1.0` (no upscaling); returns `(renderWMm, renderHMm)`. -/
def calculateImageRenderSize (imgWPx imgHPx cellWMm cellHMm : ℚ) : ℚ × ℚ :=
  let cellWPx := cellWMm * PX_PER_MM
  let cellHPx := cellHMm * PX_PER_MM
  let scaleX := cellWPx / imgWPx
  let scaleY := cellHPx / imgHPx
  let scale := min (min scaleX scaleY) 1
  (imgWPx * scale / PX_PER_MM, imgHPx * scale / PX_PER_MM)

/-- The placement rectangle of one image with local index `localIdx` on its
page (lines 96-114 / 303-321): cell position from the row-major index,
render size from `calculateImageRenderSize`, centered in the cell. -/
def placeRect (img : ImgIn) (localIdx cols : ℕ) (cellW cellH : ℚ) : ℚ × ℚ × ℚ × ℚ :=
  let row := localIdx / cols
  let col := localIdx % cols
  let cellX := MARGIN_MM + (col : ℚ) * (cellW + GAP_MM)
  let cellY := MARGIN_MM + (row : ℚ) * (cellH + GAP_MM)
  let r := calculateImageRenderSize img.wPx img.hPx cellW cellH
  (cellX + (cellW - r.1) / 2, cellY + (cellH - r.2) / 2, r.1, r.2)

/-- `doc.addImage(img.dataUrl, 'PNG', imgX, imgY, renderWMm, renderHMm)`
(line 117 / 325). -/
def placeInstr (img : ImgIn) (localIdx cols : ℕ) (cellW cellH : ℚ) : Instr :=
  let p := placeRect img localIdx cols cellW cellH
  Instr.addImage img.dataUrl p.1 p.2.1 p.2.2.1 p.2.2.2

/-- The inner image loop of version 1 (lines 94-118): places every image of
the page slice, local index counting from `li`. -/
def placeImagesV1 (cols : ℕ) (cellW cellH : ℚ) : ℕ → List ImgIn → List Instr
  | _, [] => []
  | li, img :: rest =>
      placeInstr img li cols cellW cellH ::
        placeImagesV1 cols cellW cellH (li + 1) rest

/-- The inner image loop of version 2 (lines 294-330): images whose
intrinsic width or height is not positive are skipped (`continue`),
the rest are placed as in version 1. -/
def placeImagesV2 (cols : ℕ) (cellW cellH : ℚ) : ℕ → List ImgIn → List Instr
  | _, [] => []
  | li, img :: rest =>
      if img.wPx ≤ 0 ∨ img.hPx ≤ 0 then
        placeImagesV2 cols cellW cellH (li + 1) rest
      else
        placeInstr img li cols cellW cellH ::
          placeImagesV2 cols cellW cellH (li + 1) rest

/-- Vertical separator lines (lines 132-138 / 344-350): for
`c = 1 .. cols-1`, a line at `x = MARGIN_MM + c*cellW + (c-1)*GAP_MM +
GAP_MM/2` from `y = MARGIN_MM` to `y = pageH - MARGIN_MM`. -/
def vLines (cols : ℕ) (cellW pageH : ℚ) : List Instr :=
  (List.range (cols - 1)).map fun j =>
    let c : ℚ := ((j + 1 : ℕ) : ℚ)
    let x := MARGIN_MM + c * cellW + (c - 1) * GAP_MM + GAP_MM / 2
    Instr.drawLine x MARGIN_MM x (pageH - MARGIN_MM)

/-- Horizontal separator lines (lines 141-147 / 353-359): for
`r = 1 .. rows-1`, a line at `y = MARGIN_MM + r*cellH + (r-1)*GAP_MM +
GAP_MM/2` from `x = MARGIN_MM` to `x = pageW - MARGIN_MM`. -/
def hLines (rows : ℕ) (cellH pageW : ℚ) : List Instr :=
  (List.range (rows - 1)).map fun j =>
    let r : ℚ := ((j + 1 : ℕ) : ℚ)
    let y := MARGIN_MM + r * cellH + (r - 1) * GAP_MM + GAP_MM / 2
    Instr.drawLine MARGIN_MM y (pageW - MARGIN_MM) y

/-- The per-page separator block (lines 121-153 / 333-365): emitted only
when the style is not `none`; vertical lines first, then horizontal. -/
def lineInstrs (rows cols : ℕ) (cellW cellH pageW pageH : ℚ)
    (style : GridStyle) : List Instr :=
  if style = GridStyle.none then []
  else vLines cols cellW pageH ++ hLines rows cellH pageW

/-- One iteration of the page loop of version 1 (lines 85-154):
`addPage` for every page after the first, then the images of the slice
`images[page*ipp .. min((page+1)*ipp, length))`, then separator lines. -/
def genPageV1 (images : List ImgIn) (rows cols : ℕ)
    (cellW cellH pageW pageH : ℚ) (style : GridStyle) (page : ℕ) : List Instr :=
  let ipp := rows * cols
  let slice := (images.drop (page * ipp)).take ipp
  (if 0 < page then [Instr.addPage] else []) ++
    placeImagesV1 cols cellW cellH 0 slice ++
    lineInstrs rows cols cellW cellH pageW pageH style

/-- One iteration of the page loop of version 2 (lines 285-366): as
version 1 but with the skip of invalid images. -/
def genPageV2 (images : List ImgIn) (rows cols : ℕ)
    (cellW cellH pageW pageH : ℚ) (style : GridStyle) (page : ℕ) : List Instr :=
  let ipp := rows * cols
  let slice := (images.drop (page * ipp)).take ipp
  (if 0 < page then [Instr.addPage] else []) ++
    placeImagesV2 cols cellW cellH 0 slice ++
    lineInstrs rows cols cellW cellH pageW pageH style

/-- `imagesPerPage = rows * cols` (line 82 / 281). -/
def imagesPerPageOf (a : GenArgs) : ℕ := a.rows.toNat * a.cols.toNat

/-- `pageCount = Math.ceil(images.length / imagesPerPage)` (line 83 / 282),
as the natural number `(N + ipp - 1) / ipp`. -/
def pageCountOf (a : GenArgs) : ℕ :=
  (a.images.length + imagesPerPageOf a - 1) / imagesPerPageOf a

/-- The instruction trace of version 1 of `generatePdf` (lines 57-157). -/
def generatePdfV1 (a : GenArgs) : List Instr :=
  ((List.range (pageCountOf a)).map fun page =>
    genPageV1 a.images a.rows.toNat a.cols.toNat
      (cellWOf a.orient a.cols) (cellHOf a.orient a.rows)
      (pageSizeOf a.orient).width (pageSizeOf a.orient).height
      a.gridStyle page).flatten

/-- The instruction trace of version 2 of `generatePdf` after validation. -/
def traceV2 (a : GenArgs) : List Instr :=
  ((List.range (pageCountOf a)).map fun page =>
    genPageV2 a.images a.rows.toNat a.cols.toNat
      (cellWOf a.orient a.cols) (cellHOf a.orient a.rows)
      (pageSizeOf a.orient).width (pageSizeOf a.orient).height
      a.gridStyle page).flatten

/-- The `PdfGenerationError` values raised by version 2 (lines 237-278),
distinguished by their message. -/
inductive PdfError where
  | noImages : PdfError
  | invalidRows : PdfError
  | invalidCols : PdfError
  | invalidCellSize : PdfError
deriving DecidableEq

/-- What version 2 returns on success: `{ blob, pageCount }` (line 401).
The blob is modelled by the instruction trace that produced it. -/
structure GenResult where
  pageCount : ℕ
  instrs : List Instr
deriving DecidableEq

/-- Version 2 of `generatePdf` (lines 227-402): validation (empty image
list, `rows < 1`, `cols < 1`, non-positive resolved cell dimension) throws
a `PdfGenerationError`; otherwise the pages are generated and
`{ blob, pageCount }` is returned. -/
def generatePdfV2 (a : GenArgs) : Except PdfError GenResult :=
  if a.images.length = 0 then Except.error PdfError.noImages
  else if a.rows < 1 then Except.error PdfError.invalidRows
  else if a.cols < 1 then Except.error PdfError.invalidCols
  else if cellWOf a.orient a.cols ≤ 0 ∨ cellHOf a.orient a.rows ≤ 0 then
    Except.error PdfError.invalidCellSize
  else Except.ok ⟨pageCountOf a, traceV2 a⟩

/-- The names reported by `console.warn` for skipped images in version 2
(line 299), in processing order; empty when validation fails before the
page loop is reached. -/
def skippedNames (a : GenArgs) : List ℕ :=
  if a.images.length = 0 then []
  else if a.rows < 1 then []
  else if a.cols < 1 then []
  else if cellWOf a.orient a.cols ≤ 0 ∨ cellHOf a.orient a.rows ≤ 0 then []
  else
    ((List.range (pageCountOf a)).map fun page =>
      ((a.images.drop (page * imagesPerPageOf a)).take (imagesPerPageOf a)).filterMap
        fun img => if img.wPx ≤ 0 ∨ img.hPx ≤ 0 then some img.name else none).flatten

/-- The payload identifiers of the `addImage` instructions of a trace, in
order. -/
def imagePayloads (l : List Instr) : List ℕ :=
  l.filterMap fun i =>
    match i with
    | Instr.addImage p _ _ _ _ => some p
    | _ => none

/-- Classifier for the outcomes of version 2 that are grid-validation
failures (`Invalid rows value`, `Invalid columns value`, invalid cell
size), as opposed to the empty-input error or success. -/
def isInvalidGridError : Except PdfError GenResult → Bool
  | Except.error PdfError.invalidRows => true
  | Except.error PdfError.invalidCols => true
  | Except.error PdfError.invalidCellSize => true
  | _ => false

/-- An image has valid intrinsic dimensions when both are positive; the
negation of the skip condition of version 2 (line 298). -/
def validDims (img : ImgIn) : Prop := 0 < img.wPx ∧ 0 < img.hPx

instance (img : ImgIn) : Decidable (validDims img) :=
  inferInstanceAs (Decidable (_ ∧ _))

lemma not_skip_iff (img : ImgIn) : ¬(img.wPx ≤ 0 ∨ img.hPx ≤ 0) ↔ validDims img := by
  unfold validDims
  push_neg
  rfl

/-- The page slices of a chunked list concatenate to a prefix of the list. -/
lemma flatten_chunks {α : Type} (l : List α) (n : ℕ) (k : ℕ) :
    ((List.range k).map fun p => (l.drop (p * n)).take n).flatten = l.take (k * n) := by
  induction k with
  | zero => simp
  | succ k ih =>
      rw [List.range_succ, List.map_append, List.flatten_append]
      simp only [List.map_cons, List.map_nil, List.flatten_cons, List.flatten_nil,
        List.append_nil]
      rw [ih, Nat.succ_mul, List.take_add]

lemma length_le_pageCount_mul (N ipp : ℕ) (h : 0 < ipp) :
    N ≤ ((N + ipp - 1) / ipp) * ipp := by
  have h1 : ipp * ((N + ipp - 1) / ipp) + (N + ipp - 1) % ipp = N + ipp - 1 :=
    Nat.div_add_mod _ _
  have h2 : (N + ipp - 1) % ipp < ipp := Nat.mod_lt _ h
  rw [Nat.mul_comm]
  omega

/-- `(N + ipp - 1) / ipp` is the ceiling of the exact rational `N / ipp`. -/
lemma ceilDiv_eq_rat_ceil (N ipp : ℕ) (h : 0 < ipp) :
    (((N + ipp - 1) / ipp : ℕ) : ℤ) = ⌈(N : ℚ) / (ipp : ℚ)⌉ := by
  have hq : (0 : ℚ) < (ipp : ℚ) := by exact_mod_cast h
  symm
  rw [Int.ceil_eq_iff]
  constructor
  · have hub : ((N + ipp - 1) / ipp) * ipp < N + ipp := by
      have h1 := Nat.div_mul_le_self (N + ipp - 1) ipp
      omega
    have hub2 : (((N + ipp - 1) / ipp : ℕ) : ℚ) * (ipp : ℚ) < (N : ℚ) + (ipp : ℚ) := by
      exact_mod_cast hub
    rw [Int.cast_natCast, sub_lt_iff_lt_add, div_add' _ _ _ (ne_of_gt hq),
      lt_div_iff hq]
    nlinarith
  · rw [Int.cast_natCast, div_le_iff hq]
    exact_mod_cast length_le_pageCount_mul N ipp h

/-- Inversion of the validation chain of version 2. -/
lemma generatePdfV2_ok_iff (a : GenArgs) (r : GenResult) :
    generatePdfV2 a = Except.ok r ↔
      a.images.length ≠ 0 ∧ ¬a.rows < 1 ∧ ¬a.cols < 1 ∧
      ¬(cellWOf a.orient a.cols ≤ 0 ∨ cellHOf a.orient a.rows ≤ 0) ∧
      r = ⟨pageCountOf a, traceV2 a⟩ := by
  unfold generatePdfV2
  split_ifs with h1 h2 h3 h4
  · simp [h1]
  · simp [h2]
  · simp [h3]
  · simp [h4]
  · simp [h1, h2, h3, h4, eq_comm]

lemma placeImagesV2_eq_V1 (cols : ℕ) (cW cH : ℚ) (l : List ImgIn) :
    ∀ li, (∀ img ∈ l, validDims img) →
      placeImagesV2 cols cW cH li l = placeImagesV1 cols cW cH li l := by
  induction l with
  | nil => intro li _; rfl
  | cons img rest ih =>
      intro li h
      have h1 : ¬(img.wPx ≤ 0 ∨ img.hPx ≤ 0) :=
        (not_skip_iff img).mpr (h img (List.mem_cons_self _ _))
      simp only [placeImagesV2, placeImagesV1, if_neg h1]
      rw [ih (li + 1) fun i hi => h i (List.mem_cons_of_mem _ hi)]

lemma imagePayloads_append (l1 l2 : List Instr) :
    imagePayloads (l1 ++ l2) = imagePayloads l1 ++ imagePayloads l2 := by
  simp [imagePayloads]

lemma imagePayloads_placeImagesV2 (cols : ℕ) (cW cH : ℚ) (l : List ImgIn) :
    ∀ li, imagePayloads (placeImagesV2 cols cW cH li l) =
      (l.filter fun img => decide (validDims img)).map ImgIn.dataUrl := by
  induction l with
  | nil => intro _; rfl
  | cons img rest ih =>
      intro li
      by_cases hbad : img.wPx ≤ 0 ∨ img.hPx ≤ 0
      · have hd : decide (validDims img) = false := by
          simp only [decide_eq_false_iff_not]
          exact fun hv => (not_skip_iff img).mpr hv hbad
        simp only [placeImagesV2, if_pos hbad, List.filter_cons, hd,
          Bool.false_eq_true, if_false]
        exact ih (li + 1)
      · have hd : decide (validDims img) = true := by
          simp only [decide_eq_true_eq]
          exact (not_skip_iff img).mp hbad
        simp only [placeImagesV2, if_neg hbad, List.filter_cons, hd, if_true]
        simp only [imagePayloads, List.filterMap_cons, placeInstr]
        rw [← imagePayloads, ih (li + 1)]
        rfl

lemma imagePayloads_placeImagesV1 (cols : ℕ) (cW cH : ℚ) (l : List ImgIn) :
    ∀ li, imagePayloads (placeImagesV1 cols cW cH li l) = l.map ImgIn.dataUrl := by
  induction l with
  | nil => intro _; rfl
  | cons img rest ih =>
      intro li
      simp only [placeImagesV1, imagePayloads, List.filterMap_cons, placeInstr]
      rw [← imagePayloads, ih (li + 1)]
      rfl

lemma imagePayloads_vLines (cols : ℕ) (cW pH : ℚ) :
    imagePayloads (vLines cols cW pH) = [] := by
  unfold vLines imagePayloads
  induction List.range (cols - 1) with
  | nil => rfl
  | cons j rest ih => simpa using ih

lemma imagePayloads_hLines (rows : ℕ) (cH pW : ℚ) :
    imagePayloads (hLines rows cH pW) = [] := by
  unfold hLines imagePayloads
  induction List.range (rows - 1) with
  | nil => rfl
  | cons j rest ih => simpa using ih

lemma imagePayloads_lineInstrs (rows cols : ℕ) (cW cH pW pH : ℚ) (style : GridStyle) :
    imagePayloads (lineInstrs rows cols cW cH pW pH style) = [] := by
  unfold lineInstrs
  split
  · rfl
  · rw [imagePayloads_append, imagePayloads_vLines, imagePayloads_hLines]
    rfl

lemma imagePayloads_genPageV2 (images : List ImgIn) (rows cols : ℕ)
    (cW cH pW pH : ℚ) (style : GridStyle) (page : ℕ) :
    imagePayloads (genPageV2 images rows cols cW cH pW pH style page) =
      (((images.drop (page * (rows * cols))).take (rows * cols)).filter
        fun img => decide (validDims img)).map ImgIn.dataUrl := by
  unfold genPageV2
  rw [imagePayloads_append, imagePayloads_append, imagePayloads_placeImagesV2,
    imagePayloads_lineInstrs]
  have h0 : imagePayloads (if 0 < page then [Instr.addPage] else []) = [] := by
    split <;> rfl
  rw [h0]
  simp

lemma imagePayloads_flatten (L : List (List Instr)) :
    imagePayloads L.flatten = (L.map imagePayloads).flatten := by
  induction L with
  | nil => rfl
  | cons l rest ih => rw [List.flatten_cons, imagePayloads_append, ih]; rfl

lemma filter_map_flatten (L : List (List ImgIn)) (p : ImgIn → Bool) :
    (L.map fun s => (s.filter p).map ImgIn.dataUrl).flatten =
      (L.flatten.filter p).map ImgIn.dataUrl := by
  induction L with
  | nil => rfl
  | cons s rest ih => simp [List.filter_append, ih]

lemma PX_PER_MM_pos : (0 : ℚ) < PX_PER_MM := by norm_num [PX_PER_MM]

/-- The render rectangle is nonnegative and never exceeds the cell. -/
lemma renderSize_bounds (imgW imgH cW cH : ℚ) (hw : 0 < imgW) (hh : 0 < imgH)
    (hcw : 0 ≤ cW) (hch : 0 ≤ cH) :
    0 ≤ (calculateImageRenderSize imgW imgH cW cH).1 ∧
    (calculateImageRenderSize imgW imgH cW cH).1 ≤ cW ∧
    0 ≤ (calculateImageRenderSize imgW imgH cW cH).2 ∧
    (calculateImageRenderSize imgW imgH cW cH).2 ≤ cH := by
  have hp := PX_PER_MM_pos
  unfold calculateImageRenderSize
  simp only
  set sx := cW * PX_PER_MM / imgW with hsx
  set sy := cH * PX_PER_MM / imgH with hsy
  have hsx0 : 0 ≤ sx := div_nonneg (mul_nonneg hcw hp.le) hw.le
  have hsy0 : 0 ≤ sy := div_nonneg (mul_nonneg hch hp.le) hh.le
  have hs0 : 0 ≤ min (min sx sy) 1 := le_min (le_min hsx0 hsy0) zero_le_one
  have hssx : min (min sx sy) 1 ≤ sx := (min_le_left _ _).trans (min_le_left _ _)
  have hssy : min (min sx sy) 1 ≤ sy := (min_le_left _ _).trans (min_le_right _ _)
  refine ⟨div_nonneg (mul_nonneg hw.le hs0) hp.le, ?_,
    div_nonneg (mul_nonneg hh.le hs0) hp.le, ?_⟩
  · rw [div_le_iff hp]
    calc imgW * min (min sx sy) 1 ≤ imgW * sx := by nlinarith
    _ = cW * PX_PER_MM := by rw [hsx]; field_simp
  · rw [div_le_iff hp]
    calc imgH * min (min sx sy) 1 ≤ imgH * sy := by nlinarith
    _ = cH * PX_PER_MM := by rw [hsy]; field_simp

/-- The render rectangle preserves the aspect ratio of the image. -/
lemma renderSize_aspect (imgW imgH cW cH : ℚ) :
    (calculateImageRenderSize imgW imgH cW cH).1 * imgH =
      (calculateImageRenderSize imgW imgH cW cH).2 * imgW := by
  unfold calculateImageRenderSize
  ring

/-- The scale clamp at 1.0: the render size never exceeds the intrinsic
size in mm-equivalent. -/
lemma renderSize_no_upscale (imgW imgH cW cH : ℚ) (hw : 0 < imgW) (hh : 0 < imgH) :
    (calculateImageRenderSize imgW imgH cW cH).1 ≤ imgW / PX_PER_MM ∧
    (calculateImageRenderSize imgW imgH cW cH).2 ≤ imgH / PX_PER_MM := by
  have hp := PX_PER_MM_pos
  unfold calculateImageRenderSize
  simp only
  have hs1 : min (min (cW * PX_PER_MM / imgW) (cH * PX_PER_MM / imgH)) 1 ≤ 1 :=
    min_le_right _ _
  constructor
  · rw [div_le_div_iff hp hp]
    have h1 : imgW * min (min (cW * PX_PER_MM / imgW) (cH * PX_PER_MM / imgH)) 1 ≤
        imgW * 1 := mul_le_mul_of_nonneg_left hs1 hw.le
    nlinarith
  · rw [div_le_div_iff hp hp]
    have h1 : imgH * min (min (cW * PX_PER_MM / imgW) (cH * PX_PER_MM / imgH)) 1 ≤
        imgH * 1 := mul_le_mul_of_nonneg_left hs1 hh.le
    nlinarith

lemma genPageV2_eq_V1 (images : List ImgIn) (rows cols : ℕ) (cW cH pW pH : ℚ)
    (style : GridStyle) (page : ℕ) (h : ∀ img ∈ images, validDims img) :
    genPageV2 images rows cols cW cH pW pH style page =
      genPageV1 images rows cols cW cH pW pH style page := by
  simp only [genPageV1, genPageV2]
  rw [placeImagesV2_eq_V1]
  intro img hmem
  exact h img (List.mem_of_mem_drop (List.mem_of_mem_take hmem))

lemma traceV2_eq_generatePdfV1 (a : GenArgs) (h : ∀ img ∈ a.images, validDims img) :
    traceV2 a = generatePdfV1 a := by
  unfold traceV2 generatePdfV1
  congr 1
  apply List.map_congr_left
  intro page _
  exact genPageV2_eq_V1 _ _ _ _ _ _ _ _ _ h

lemma imagePayloads_traceV2 (a : GenArgs) (hipp : 0 < imagesPerPageOf a) :
    imagePayloads (traceV2 a) =
      (a.images.filter fun img => decide (validDims img)).map ImgIn.dataUrl := by
  unfold traceV2
  rw [imagePayloads_flatten, List.map_map]
  have step : List.map (imagePayloads ∘ fun page => genPageV2 a.images a.rows.toNat
      a.cols.toNat (cellWOf a.orient a.cols) (cellHOf a.orient a.rows)
      (pageSizeOf a.orient).width (pageSizeOf a.orient).height a.gridStyle page)
      (List.range (pageCountOf a)) =
      List.map ((fun s : List ImgIn =>
          (s.filter fun img => decide (validDims img)).map ImgIn.dataUrl) ∘
        fun page => (a.images.drop (page * (a.rows.toNat * a.cols.toNat))).take
          (a.rows.toNat * a.cols.toNat)) (List.range (pageCountOf a)) := by
    apply List.map_congr_left
    intro page _
    simp only [Function.comp]
    exact imagePayloads_genPageV2 _ _ _ _ _ _ _ _ _
  have hlen : a.images.length ≤ pageCountOf a * (a.rows.toNat * a.cols.toNat) :=
    length_le_pageCount_mul _ _ hipp
  rw [step, ← List.map_map, filter_map_flatten, flatten_chunks,
    List.take_of_length_le hlen]

lemma filterMap_skip_eq (l : List ImgIn) :
    (l.filterMap fun img => if img.wPx ≤ 0 ∨ img.hPx ≤ 0 then some img.name else none) =
      (l.filter fun img => decide (img.wPx ≤ 0 ∨ img.hPx ≤ 0)).map ImgIn.name := by
  induction l with
  | nil => rfl
  | cons img rest ih =>
      by_cases h : img.wPx ≤ 0 ∨ img.hPx ≤ 0 <;>
        simp [List.filterMap_cons, List.filter_cons, h, ih]

lemma filter_name_flatten (L : List (List ImgIn)) (p : ImgIn → Bool) :
    (L.map fun s => (s.filter p).map ImgIn.name).flatten =
      (L.flatten.filter p).map ImgIn.name := by
  induction L with
  | nil => rfl
  | cons s rest ih => simp [List.filter_append, ih]

lemma skippedNames_eq (a : GenArgs) (h1 : a.images.length ≠ 0) (h2 : ¬a.rows < 1)
    (h3 : ¬a.cols < 1)
    (h4 : ¬(cellWOf a.orient a.cols ≤ 0 ∨ cellHOf a.orient a.rows ≤ 0)) :
    skippedNames a =
      (a.images.filter fun img => decide (img.wPx ≤ 0 ∨ img.hPx ≤ 0)).map ImgIn.name := by
  have hipp : 0 < imagesPerPageOf a := by
    unfold imagesPerPageOf
    have : 0 < a.rows.toNat ∧ 0 < a.cols.toNat := by omega
    exact Nat.mul_pos this.1 this.2
  unfold skippedNames
  rw [if_neg h1, if_neg h2, if_neg h3, if_neg h4]
  have step : List.map (fun page =>
      ((a.images.drop (page * imagesPerPageOf a)).take (imagesPerPageOf a)).filterMap
        fun img => if img.wPx ≤ 0 ∨ img.hPx ≤ 0 then some img.name else none)
      (List.range (pageCountOf a)) =
      List.map ((fun s : List ImgIn => (s.filter fun img =>
          decide (img.wPx ≤ 0 ∨ img.hPx ≤ 0)).map ImgIn.name) ∘
        fun page => (a.images.drop (page * imagesPerPageOf a)).take (imagesPerPageOf a))
      (List.range (pageCountOf a)) := by
    apply List.map_congr_left
    intro page _
    simp only [Function.comp]
    exact filterMap_skip_eq _
  have hlen : a.images.length ≤ pageCountOf a * imagesPerPageOf a :=
    length_le_pageCount_mul _ _ hipp
  rw [step, ← List.map_map, filter_name_flatten, flatten_chunks,
    List.take_of_length_le hlen]

lemma drawLine_not_mem_placeImagesV2 (cols : ℕ) (cW cH x1 y1 x2 y2 : ℚ)
    (l : List ImgIn) : ∀ li, Instr.drawLine x1 y1 x2 y2 ∉ placeImagesV2 cols cW cH li l := by
  induction l with
  | nil => intro li h; exact absurd h (List.not_mem_nil _)
  | cons img rest ih =>
      intro li h
      unfold placeImagesV2 at h
      split_ifs at h
      · exact ih (li + 1) h
      · rcases List.mem_cons.mp h with h | h
        · exact absurd h (by simp [placeInstr])
        · exact ih (li + 1) h

lemma drawLine_mem_genPageV2 {x1 y1 x2 y2 : ℚ} (images : List ImgIn)
    (rows cols : ℕ) (cW cH pW pH : ℚ) (style : GridStyle) (page : ℕ)
    (h : Instr.drawLine x1 y1 x2 y2 ∈ genPageV2 images rows cols cW cH pW pH style page) :
    Instr.drawLine x1 y1 x2 y2 ∈ lineInstrs rows cols cW cH pW pH style := by
  simp only [genPageV2] at h
  rcases List.mem_append.mp h with h | h
  · rcases List.mem_append.mp h with h | h
    · exfalso
      revert h
      split <;> simp
    · exact absurd h (drawLine_not_mem_placeImagesV2 _ _ _ _ _ _ _ _ _)
  · exact h

lemma mem_vLines {i : Instr} (cols : ℕ) (cW pH : ℚ) (h : i ∈ vLines cols cW pH) :
    ∃ k : ℕ, 1 ≤ k ∧ k < cols ∧
      i = Instr.drawLine (MARGIN_MM + (k : ℚ) * cW + ((k : ℚ) - 1) * GAP_MM + GAP_MM / 2)
            MARGIN_MM (MARGIN_MM + (k : ℚ) * cW + ((k : ℚ) - 1) * GAP_MM + GAP_MM / 2)
            (pH - MARGIN_MM) := by
  unfold vLines at h
  rcases List.mem_map.mp h with ⟨j, hj, rfl⟩
  have hjr := List.mem_range.mp hj
  exact ⟨j + 1, by omega, by omega, rfl⟩

lemma mem_hLines {i : Instr} (rows : ℕ) (cH pW : ℚ) (h : i ∈ hLines rows cH pW) :
    ∃ k : ℕ, 1 ≤ k ∧ k < rows ∧
      i = Instr.drawLine MARGIN_MM
            (MARGIN_MM + (k : ℚ) * cH + ((k : ℚ) - 1) * GAP_MM + GAP_MM / 2)
            (pW - MARGIN_MM)
            (MARGIN_MM + (k : ℚ) * cH + ((k : ℚ) - 1) * GAP_MM + GAP_MM / 2) := by
  unfold hLines at h
  rcases List.mem_map.mp h with ⟨j, hj, rfl⟩
  have hjr := List.mem_range.mp hj
  exact ⟨j + 1, by omega, by omega, rfl⟩

lemma vLine_mem (cols : ℕ) (cW pH : ℚ) (k : ℕ) (hk1 : 1 ≤ k) (hk2 : k < cols) :
    Instr.drawLine (MARGIN_MM + (k : ℚ) * cW + ((k : ℚ) - 1) * GAP_MM + GAP_MM / 2)
      MARGIN_MM (MARGIN_MM + (k : ℚ) * cW + ((k : ℚ) - 1) * GAP_MM + GAP_MM / 2)
      (pH - MARGIN_MM) ∈ vLines cols cW pH := by
  unfold vLines
  apply List.mem_map.mpr
  refine ⟨k - 1, List.mem_range.mpr (by omega), ?_⟩
  have h : k - 1 + 1 = k := by omega
  rw [h]

lemma hLine_mem (rows : ℕ) (cH pW : ℚ) (k : ℕ) (hk1 : 1 ≤ k) (hk2 : k < rows) :
    Instr.drawLine MARGIN_MM
      (MARGIN_MM + (k : ℚ) * cH + ((k : ℚ) - 1) * GAP_MM + GAP_MM / 2)
      (pW - MARGIN_MM)
      (MARGIN_MM + (k : ℚ) * cH + ((k : ℚ) - 1) * GAP_MM + GAP_MM / 2)
      ∈ hLines rows cH pW := by
  unfold hLines
  apply List.mem_map.mpr
  refine ⟨k - 1, List.mem_range.mpr (by omega), ?_⟩
  have h : k - 1 + 1 = k := by omega
  rw [h]

/-- The separator position `margin + k·cell + (k−1)·gap + gap/2` lies
strictly between `0` and the page extent, given positive cells and the
exact geometry identity. -/
lemma sepPos_bounds (count : ℕ) (cell page : ℚ) (k : ℕ) (hk1 : 1 ≤ k)
    (hk2 : k < count) (hcell : 0 < cell)
    (hgeom : (count : ℚ) * cell + ((count : ℚ) - 1) * GAP_MM = page - 2 * MARGIN_MM) :
    0 < MARGIN_MM + (k : ℚ) * cell + ((k : ℚ) - 1) * GAP_MM + GAP_MM / 2 ∧
    MARGIN_MM + (k : ℚ) * cell + ((k : ℚ) - 1) * GAP_MM + GAP_MM / 2 < page := by
  have hM : MARGIN_MM = 6 := rfl
  have hG : GAP_MM = 2 := rfl
  have hkq : (1 : ℚ) ≤ (k : ℚ) := by exact_mod_cast hk1
  have hkc : (k : ℚ) + 1 ≤ (count : ℚ) := by exact_mod_cast hk2
  rw [hM, hG] at hgeom ⊢
  constructor
  · nlinarith [mul_pos (lt_of_lt_of_le zero_lt_one hkq) hcell]
  · nlinarith [mul_pos (show (0 : ℚ) < (count : ℚ) - (k : ℚ) by linarith) hcell]

lemma toNat_cast_q (z : ℤ) (h : 1 ≤ z) : ((z.toNat : ℕ) : ℚ) = (z : ℚ) := by
  have h0 : (z.toNat : ℤ) = z := Int.toNat_of_nonneg (by omega)
  exact_mod_cast congrArg (fun t : ℤ => (t : ℚ)) h0

/-- Exact geometry identity of the resolver: `cols` cells and `cols − 1`
gaps tile the usable width exactly. -/
lemma cell_geometry_w (o : Orient) (cols : ℤ) (hc : 1 ≤ cols) :
    (cols : ℚ) * cellWOf o cols + ((cols : ℚ) - 1) * GAP_MM = usableWOf o := by
  have h1 : (1 : ℚ) ≤ (cols : ℚ) := by exact_mod_cast hc
  have h0 : ((cols : ℚ)) ≠ 0 := by linarith
  unfold cellWOf
  field_simp

lemma cell_geometry_h (o : Orient) (rows : ℤ) (hr : 1 ≤ rows) :
    (rows : ℚ) * cellHOf o rows + ((rows : ℚ) - 1) * GAP_MM = usableHOf o := by
  have h1 : (1 : ℚ) ≤ (rows : ℚ) := by exact_mod_cast hr
  have h0 : ((rows : ℚ)) ≠ 0 := by linarith
  unfold cellHOf
  field_simp

example : pageCountOf ⟨[⟨0, 0, 10, 10⟩, ⟨1, 1, 10, 10⟩, ⟨2, 2, 10, 10⟩,
    ⟨3, 3, 10, 10⟩, ⟨4, 4, 10, 10⟩], 2, 2, Orient.portrait, GridStyle.none⟩ = 2 := by
  rfl

example : generatePdfV2 ⟨[], 2, 2, Orient.portrait, GridStyle.none⟩ =
    Except.error PdfError.noImages := by rfl

example : calculateImageRenderSize 100 50 40 40 = (5000 / 189, 2500 / 189) := by
  norm_num [calculateImageRenderSize, PX_PER_MM]

example : calculateImageRenderSize 2000 1000 40 40 = (40, 20) := by
  norm_num [calculateImageRenderSize, PX_PER_MM]

/-- C4: for every positive image size and positive cell size, the fit
calculator (scale `= min(cellWPx/imgWPx, cellHPx/imgHPx, 1.0)`) returns a
render width no larger than `imgWPx / pxPerMm` and a render height no
larger than `imgHPx / pxPerMm` (no-upscale law), and the render rectangle
preserves the image's aspect ratio
(`renderW * imgH = renderH * imgW`). -/
theorem c4_fit_no_upscale (imgWPx imgHPx cellWMm cellHMm : ℚ)
    (hw : 0 < imgWPx) (hh : 0 < imgHPx) (hcw : 0 < cellWMm) (hch : 0 < cellHMm) :
    (calculateImageRenderSize imgWPx imgHPx cellWMm cellHMm).1 ≤ imgWPx / PX_PER_MM ∧
    (calculateImageRenderSize imgWPx imgHPx cellWMm cellHMm).2 ≤ imgHPx / PX_PER_MM ∧
    (calculateImageRenderSize imgWPx imgHPx cellWMm cellHMm).1 * imgHPx =
      (calculateImageRenderSize imgWPx imgHPx cellWMm cellHMm).2 * imgWPx :=
  ⟨(renderSize_no_upscale imgWPx imgHPx cellWMm cellHMm hw hh).1,
   (renderSize_no_upscale imgWPx imgHPx cellWMm cellHMm hw hh).2,
   renderSize_aspect imgWPx imgHPx cellWMm cellHMm⟩

/-- Witness for C4 at the spec scenario: a 2000 x 1000 px image in a
40 x 40 mm cell. -/
theorem c4_fit_no_upscale_witness :
    ((0 : ℚ) < 2000 ∧ (0 : ℚ) < 1000 ∧ (0 : ℚ) < 40) ∧
    ((calculateImageRenderSize 2000 1000 40 40).1 ≤ 2000 / PX_PER_MM ∧
     (calculateImageRenderSize 2000 1000 40 40).2 ≤ 1000 / PX_PER_MM ∧
     (calculateImageRenderSize 2000 1000 40 40).1 * 1000 =
       (calculateImageRenderSize 2000 1000 40 40).2 * 2000) :=
  ⟨⟨by norm_num, by norm_num, by norm_num⟩,
   c4_fit_no_upscale 2000 1000 40 40 (by norm_num) (by norm_num)
     (by norm_num) (by norm_num)⟩

/-- C5: for every positive image and cell size, the placement offsets are
`offsetX = (cellW - renderW)/2 >= 0` and `offsetY = (cellH - renderH)/2 >= 0`,
and the placed rectangle lies fully within its cell bounds. -/
theorem c5_centering_containment (img : ImgIn) (localIdx cols : ℕ) (cellW cellH : ℚ)
    (hw : 0 < img.wPx) (hh : 0 < img.hPx) (hcw : 0 < cellW) (hch : 0 < cellH) :
    0 ≤ (cellW - (calculateImageRenderSize img.wPx img.hPx cellW cellH).1) / 2 ∧
    0 ≤ (cellH - (calculateImageRenderSize img.wPx img.hPx cellW cellH).2) / 2 ∧
    (placeRect img localIdx cols cellW cellH).1 =
      MARGIN_MM + ((localIdx % cols : ℕ) : ℚ) * (cellW + GAP_MM) +
        (cellW - (calculateImageRenderSize img.wPx img.hPx cellW cellH).1) / 2 ∧
    (placeRect img localIdx cols cellW cellH).2.1 =
      MARGIN_MM + ((localIdx / cols : ℕ) : ℚ) * (cellH + GAP_MM) +
        (cellH - (calculateImageRenderSize img.wPx img.hPx cellW cellH).2) / 2 ∧
    MARGIN_MM + ((localIdx % cols : ℕ) : ℚ) * (cellW + GAP_MM) ≤
      (placeRect img localIdx cols cellW cellH).1 ∧
    (placeRect img localIdx cols cellW cellH).1 +
        (placeRect img localIdx cols cellW cellH).2.2.1 ≤
      MARGIN_MM + ((localIdx % cols : ℕ) : ℚ) * (cellW + GAP_MM) + cellW ∧
    MARGIN_MM + ((localIdx / cols : ℕ) : ℚ) * (cellH + GAP_MM) ≤
      (placeRect img localIdx cols cellW cellH).2.1 ∧
    (placeRect img localIdx cols cellW cellH).2.1 +
        (placeRect img localIdx cols cellW cellH).2.2.2 ≤
      MARGIN_MM + ((localIdx / cols : ℕ) : ℚ) * (cellH + GAP_MM) + cellH := by
  obtain ⟨h0w, hlew, h0h, hleh⟩ :=
    renderSize_bounds img.wPx img.hPx cellW cellH hw hh hcw.le hch.le
  have e1 : (placeRect img localIdx cols cellW cellH).1 =
      MARGIN_MM + ((localIdx % cols : ℕ) : ℚ) * (cellW + GAP_MM) +
        (cellW - (calculateImageRenderSize img.wPx img.hPx cellW cellH).1) / 2 := rfl
  have e2 : (placeRect img localIdx cols cellW cellH).2.1 =
      MARGIN_MM + ((localIdx / cols : ℕ) : ℚ) * (cellH + GAP_MM) +
        (cellH - (calculateImageRenderSize img.wPx img.hPx cellW cellH).2) / 2 := rfl
  have e3 : (placeRect img localIdx cols cellW cellH).2.2.1 =
      (calculateImageRenderSize img.wPx img.hPx cellW cellH).1 := rfl
  have e4 : (placeRect img localIdx cols cellW cellH).2.2.2 =
      (calculateImageRenderSize img.wPx img.hPx cellW cellH).2 := rfl
  refine ⟨by linarith, by linarith, e1, e2, ?_, ?_, ?_, ?_⟩
  · rw [e1]; linarith
  · rw [e1, e3]; linarith
  · rw [e2]; linarith
  · rw [e2, e4]; linarith

/-- Witness for C5: a 2000 x 1000 px image at local index 3 of a
2-column grid with 98 x 141.5 mm cells. -/
theorem c5_centering_containment_witness :
    ((0 : ℚ) < 2000 ∧ (0 : ℚ) < 1000 ∧ (0 : ℚ) < 98 ∧ (0 : ℚ) < 283 / 2) ∧
    (0 ≤ (98 - (calculateImageRenderSize (2000 : ℚ) 1000 98 (283 / 2)).1) / 2 ∧
     0 ≤ (283 / 2 - (calculateImageRenderSize (2000 : ℚ) 1000 98 (283 / 2)).2) / 2 ∧
     (placeRect ⟨5, 5, 2000, 1000⟩ 3 2 98 (283 / 2)).1 =
       MARGIN_MM + ((3 % 2 : ℕ) : ℚ) * (98 + GAP_MM) +
         (98 - (calculateImageRenderSize (2000 : ℚ) 1000 98 (283 / 2)).1) / 2 ∧
     (placeRect ⟨5, 5, 2000, 1000⟩ 3 2 98 (283 / 2)).2.1 =
       MARGIN_MM + ((3 / 2 : ℕ) : ℚ) * (283 / 2 + GAP_MM) +
         (283 / 2 - (calculateImageRenderSize (2000 : ℚ) 1000 98 (283 / 2)).2) / 2 ∧
     MARGIN_MM + ((3 % 2 : ℕ) : ℚ) * (98 + GAP_MM) ≤
       (placeRect ⟨5, 5, 2000, 1000⟩ 3 2 98 (283 / 2)).1 ∧
     (placeRect ⟨5, 5, 2000, 1000⟩ 3 2 98 (283 / 2)).1 +
         (placeRect ⟨5, 5, 2000, 1000⟩ 3 2 98 (283 / 2)).2.2.1 ≤
       MARGIN_MM + ((3 % 2 : ℕ) : ℚ) * (98 + GAP_MM) + 98 ∧
     MARGIN_MM + ((3 / 2 : ℕ) : ℚ) * (283 / 2 + GAP_MM) ≤
       (placeRect ⟨5, 5, 2000, 1000⟩ 3 2 98 (283 / 2)).2.1 ∧
     (placeRect ⟨5, 5, 2000, 1000⟩ 3 2 98 (283 / 2)).2.1 +
         (placeRect ⟨5, 5, 2000, 1000⟩ 3 2 98 (283 / 2)).2.2.2 ≤
       MARGIN_MM + ((3 / 2 : ℕ) : ℚ) * (283 / 2 + GAP_MM) + 283 / 2) :=
  ⟨⟨by norm_num, by norm_num, by norm_num, by norm_num⟩,
   c5_centering_containment ⟨5, 5, 2000, 1000⟩ 3 2 98 (283 / 2)
     (by norm_num) (by norm_num) (by norm_num) (by norm_num)⟩

/-- C9: for all rows, cols >= 1 and either A4 orientation, the resolved
cells and gaps tile the usable area exactly:
`cellW * cols + (cols-1) * gap = usableWidth` (hence `<=`), symmetrically
for the height, with `usable = pageDim - 2 * margin`. -/
theorem c9_geometry_tiling (o : Orient) (rows cols : ℤ)
    (hr : 1 ≤ rows) (hc : 1 ≤ cols) :
    cellWOf o cols * (cols : ℚ) + ((cols : ℚ) - 1) * GAP_MM = usableWOf o ∧
    cellWOf o cols * (cols : ℚ) + ((cols : ℚ) - 1) * GAP_MM ≤ usableWOf o ∧
    cellHOf o rows * (rows : ℚ) + ((rows : ℚ) - 1) * GAP_MM = usableHOf o ∧
    cellHOf o rows * (rows : ℚ) + ((rows : ℚ) - 1) * GAP_MM ≤ usableHOf o ∧
    usableWOf o = (pageSizeOf o).width - 2 * MARGIN_MM ∧
    usableHOf o = (pageSizeOf o).height - 2 * MARGIN_MM := by
  have h1 := cell_geometry_w o cols hc
  have h2 := cell_geometry_h o rows hr
  exact ⟨by linear_combination h1, le_of_eq (by linear_combination h1),
    by linear_combination h2, le_of_eq (by linear_combination h2), rfl, rfl⟩

/-- Witness for C9 at the spec scenario grid 20 x 20 on A4 portrait
(cell width exactly 8 mm). -/
theorem c9_geometry_tiling_witness :
    ((1 : ℤ) ≤ 20 ∧ cellWOf Orient.portrait 20 = 8) ∧
    (cellWOf Orient.portrait 20 * ((20 : ℤ) : ℚ) +
        (((20 : ℤ) : ℚ) - 1) * GAP_MM = usableWOf Orient.portrait ∧
     cellWOf Orient.portrait 20 * ((20 : ℤ) : ℚ) +
        (((20 : ℤ) : ℚ) - 1) * GAP_MM ≤ usableWOf Orient.portrait ∧
     cellHOf Orient.portrait 20 * ((20 : ℤ) : ℚ) +
        (((20 : ℤ) : ℚ) - 1) * GAP_MM = usableHOf Orient.portrait ∧
     cellHOf Orient.portrait 20 * ((20 : ℤ) : ℚ) +
        (((20 : ℤ) : ℚ) - 1) * GAP_MM ≤ usableHOf Orient.portrait ∧
     usableWOf Orient.portrait = (pageSizeOf Orient.portrait).width - 2 * MARGIN_MM ∧
     usableHOf Orient.portrait = (pageSizeOf Orient.portrait).height - 2 * MARGIN_MM) :=
  ⟨⟨by norm_num, by norm_num +decide [cellWOf, usableWOf, pageSizeOf, A4_PORTRAIT,
      A4_LANDSCAPE, MARGIN_MM, GAP_MM]⟩,
   c9_geometry_tiling Orient.portrait 20 20 (by norm_num) (by norm_num)⟩

/-- C1 (amended): for every accepted input with rows >= 1, cols >= 1 the
returned page count equals `ceil(N / (rows * cols))`; an empty image list,
however, makes version 2 of `generatePdf` throw the `No images provided`
validation error instead of returning zero pages (version 1, which has no
validation, does produce an empty plan). -/
theorem c1_page_count (a : GenArgs) (hr : 1 ≤ a.rows) (hc : 1 ≤ a.cols) :
    (∀ r, generatePdfV2 a = Except.ok r →
      (r.pageCount : ℤ) = ⌈(a.images.length : ℚ) / ((a.rows : ℚ) * (a.cols : ℚ))⌉) ∧
    (a.images = [] →
      generatePdfV2 a = Except.error PdfError.noImages ∧ generatePdfV1 a = []) := by
  have hipp : 0 < imagesPerPageOf a := by
    have h1 : 0 < a.rows.toNat := by omega
    have h2 : 0 < a.cols.toNat := by omega
    exact Nat.mul_pos h1 h2
  constructor
  · intro r hok
    rw [generatePdfV2_ok_iff] at hok
    obtain ⟨-, -, -, -, rfl⟩ := hok
    show ((pageCountOf a : ℕ) : ℤ) = _
    unfold pageCountOf
    rw [ceilDiv_eq_rat_ceil _ _ hipp]
    congr 1
    congr 1
    unfold imagesPerPageOf
    rw [Nat.cast_mul, toNat_cast_q _ hr, toNat_cast_q _ hc]
  · intro hnil
    have hlen : a.images.length = 0 := by rw [hnil]; rfl
    constructor
    · unfold generatePdfV2
      rw [if_pos hlen]
    · unfold generatePdfV1
      have hpc : pageCountOf a = 0 := by
        unfold pageCountOf
        rw [hlen]
        exact Nat.div_eq_of_lt (by omega)
      rw [hpc]
      rfl

/-- Witness for C1 at the spec scenario: 5 images on a 2 x 2 grid make
`ceil(5/4) = 2` pages. -/
theorem c1_page_count_witness :
    generatePdfV2 ⟨[⟨0, 0, 10, 10⟩, ⟨1, 1, 10, 10⟩, ⟨2, 2, 10, 10⟩, ⟨3, 3, 10, 10⟩,
        ⟨4, 4, 10, 10⟩], 2, 2, Orient.portrait, GridStyle.none⟩ =
      Except.ok ⟨pageCountOf ⟨[⟨0, 0, 10, 10⟩, ⟨1, 1, 10, 10⟩, ⟨2, 2, 10, 10⟩,
          ⟨3, 3, 10, 10⟩, ⟨4, 4, 10, 10⟩], 2, 2, Orient.portrait, GridStyle.none⟩,
        traceV2 ⟨[⟨0, 0, 10, 10⟩, ⟨1, 1, 10, 10⟩, ⟨2, 2, 10, 10⟩, ⟨3, 3, 10, 10⟩,
          ⟨4, 4, 10, 10⟩], 2, 2, Orient.portrait, GridStyle.none⟩⟩ ∧
    ((pageCountOf ⟨[⟨0, 0, 10, 10⟩, ⟨1, 1, 10, 10⟩, ⟨2, 2, 10, 10⟩, ⟨3, 3, 10, 10⟩,
        ⟨4, 4, 10, 10⟩], 2, 2, Orient.portrait, GridStyle.none⟩ : ℤ) =
      ⌈(([⟨0, 0, 10, 10⟩, ⟨1, 1, 10, 10⟩, ⟨2, 2, 10, 10⟩, ⟨3, 3, 10, 10⟩,
          ⟨4, 4, 10, 10⟩] : List ImgIn).length : ℚ) /
        (((2 : ℤ) : ℚ) * ((2 : ℤ) : ℚ))⌉) ∧
    pageCountOf ⟨[⟨0, 0, 10, 10⟩, ⟨1, 1, 10, 10⟩, ⟨2, 2, 10, 10⟩, ⟨3, 3, 10, 10⟩,
        ⟨4, 4, 10, 10⟩], 2, 2, Orient.portrait, GridStyle.none⟩ = 2 := by
  have hok : generatePdfV2 ⟨[⟨0, 0, 10, 10⟩, ⟨1, 1, 10, 10⟩, ⟨2, 2, 10, 10⟩,
      ⟨3, 3, 10, 10⟩, ⟨4, 4, 10, 10⟩], 2, 2, Orient.portrait, GridStyle.none⟩ =
      Except.ok ⟨pageCountOf ⟨[⟨0, 0, 10, 10⟩, ⟨1, 1, 10, 10⟩, ⟨2, 2, 10, 10⟩,
          ⟨3, 3, 10, 10⟩, ⟨4, 4, 10, 10⟩], 2, 2, Orient.portrait, GridStyle.none⟩,
        traceV2 ⟨[⟨0, 0, 10, 10⟩, ⟨1, 1, 10, 10⟩, ⟨2, 2, 10, 10⟩, ⟨3, 3, 10, 10⟩,
          ⟨4, 4, 10, 10⟩], 2, 2, Orient.portrait, GridStyle.none⟩⟩ := by
    rw [generatePdfV2_ok_iff]
    refine ⟨by norm_num, by norm_num, by norm_num, ?_, rfl⟩
    norm_num +decide [cellWOf, cellHOf, usableWOf, usableHOf, pageSizeOf,
      A4_PORTRAIT, A4_LANDSCAPE, MARGIN_MM, GAP_MM]
  exact ⟨hok, (c1_page_count ⟨[⟨0, 0, 10, 10⟩, ⟨1, 1, 10, 10⟩, ⟨2, 2, 10, 10⟩,
    ⟨3, 3, 10, 10⟩, ⟨4, 4, 10, 10⟩], 2, 2, Orient.portrait, GridStyle.none⟩
    (by norm_num) (by norm_num)).1 _ hok, rfl⟩

/-- Counterexample for C1 as stated: with zero images version 2 of
`generatePdf` raises the `No images provided` validation error; it does not
return a zero-page empty plan. -/
theorem c1_zero_images_counterexample :
    generatePdfV2 ⟨[], 2, 3, Orient.portrait, GridStyle.solid⟩ =
      Except.error PdfError.noImages := by
  rfl

/-- C3 (amended): for a non-empty image list, version 2 fails with a
grid-validation error exactly when rows < 1, or cols < 1, or the resolved
cell width or height is <= 0; the error carries no partial plan.  (With an
empty image list the `No images provided` error preempts every grid
check.) -/
theorem c3_invalid_grid_iff (a : GenArgs) (h1 : a.images ≠ []) :
    isInvalidGridError (generatePdfV2 a) = true ↔
      a.rows < 1 ∨ a.cols < 1 ∨
        cellWOf a.orient a.cols ≤ 0 ∨ cellHOf a.orient a.rows ≤ 0 := by
  have h0 : ¬a.images.length = 0 := fun h => h1 (List.length_eq_zero.mp h)
  unfold generatePdfV2
  rw [if_neg h0]
  split_ifs with h2 h3 h4
  · simp [isInvalidGridError, h2]
  · simp [isInvalidGridError, h3]
  · constructor
    · intro _
      rcases h4 with h | h
      · exact Or.inr (Or.inr (Or.inl h))
      · exact Or.inr (Or.inr (Or.inr h))
    · intro _
      rfl
  · constructor
    · intro hfalse
      exact absurd hfalse (by simp [isInvalidGridError])
    · intro hcase
      rcases hcase with h | h | h | h
      · exact absurd h h2
      · exact absurd h h3
      · exact absurd (Or.inl h) h4
      · exact absurd (Or.inr h) h4

/-- Witness for C3: a non-empty batch with rows = 0 yields a
grid-validation error, and the same batch on a valid 2 x 2 grid yields
none. -/
theorem c3_invalid_grid_iff_witness :
    (([⟨1, 1, 10, 10⟩] : List ImgIn) ≠ []) ∧
    (isInvalidGridError (generatePdfV2 ⟨[⟨1, 1, 10, 10⟩], 0, 2,
        Orient.portrait, GridStyle.none⟩) = true ↔
      (0 : ℤ) < 1 ∨ (2 : ℤ) < 1 ∨
        cellWOf Orient.portrait 2 ≤ 0 ∨ cellHOf Orient.portrait 0 ≤ 0) :=
  ⟨by simp,
   c3_invalid_grid_iff ⟨[⟨1, 1, 10, 10⟩], 0, 2, Orient.portrait, GridStyle.none⟩
     (by simp)⟩

/-- Counterexample for C3 as stated: at `images = []`, `rows = 0` the
right-hand side of the claimed equivalence holds (`rows < 1`) but the call
fails with the `No images provided` error, not a grid-validation error. -/
theorem c3_counterexample :
    ((⟨[], 0, 2, Orient.portrait, GridStyle.none⟩ : GenArgs).rows < 1) ∧
    isInvalidGridError
        (generatePdfV2 ⟨[], 0, 2, Orient.portrait, GridStyle.none⟩) = false ∧
    generatePdfV2 ⟨[], 0, 2, Orient.portrait, GridStyle.none⟩ =
      Except.error PdfError.noImages :=
  ⟨by norm_num, rfl, rfl⟩

/-- C2 (amended): on every successful run, an image whose intrinsic width
or height is <= 0 is skipped for placement (it contributes no `addImage`
instruction) while the remaining images are all placed in order, and the
skipped images are reported only through `console.warn` messages (modelled
by `skippedNames`); the returned value carries only the blob and the page
count, no list of skipped items. -/
theorem c2_skip_policy (a : GenArgs) :
    ∀ r, generatePdfV2 a = Except.ok r →
      imagePayloads r.instrs =
        (a.images.filter fun img => decide (validDims img)).map ImgIn.dataUrl ∧
      skippedNames a =
        (a.images.filter fun img =>
          decide (img.wPx ≤ 0 ∨ img.hPx ≤ 0)).map ImgIn.name := by
  intro r hok
  rw [generatePdfV2_ok_iff] at hok
  obtain ⟨h1, h2, h3, h4, rfl⟩ := hok
  have hipp : 0 < imagesPerPageOf a := by
    have hm1 : 0 < a.rows.toNat := by omega
    have hm2 : 0 < a.cols.toNat := by omega
    exact Nat.mul_pos hm1 hm2
  exact ⟨imagePayloads_traceV2 a hipp, skippedNames_eq a h1 h2 h3 h4⟩

/-- Witness for C2: a batch of one valid and one zero-width image on a
1 x 3 grid; the valid image is placed, the invalid one is only warned
about. -/
theorem c2_skip_policy_witness :
    generatePdfV2 ⟨[⟨1, 1, 100, 200⟩, ⟨2, 7, 0, 50⟩], 1, 3, Orient.portrait,
        GridStyle.none⟩ =
      Except.ok ⟨pageCountOf ⟨[⟨1, 1, 100, 200⟩, ⟨2, 7, 0, 50⟩], 1, 3,
        Orient.portrait, GridStyle.none⟩,
        traceV2 ⟨[⟨1, 1, 100, 200⟩, ⟨2, 7, 0, 50⟩], 1, 3, Orient.portrait,
          GridStyle.none⟩⟩ ∧
    imagePayloads (traceV2 ⟨[⟨1, 1, 100, 200⟩, ⟨2, 7, 0, 50⟩], 1, 3,
        Orient.portrait, GridStyle.none⟩) = [1] ∧
    skippedNames ⟨[⟨1, 1, 100, 200⟩, ⟨2, 7, 0, 50⟩], 1, 3, Orient.portrait,
        GridStyle.none⟩ = [7] := by
  have hok : generatePdfV2 ⟨[⟨1, 1, 100, 200⟩, ⟨2, 7, 0, 50⟩], 1, 3,
      Orient.portrait, GridStyle.none⟩ =
      Except.ok ⟨pageCountOf ⟨[⟨1, 1, 100, 200⟩, ⟨2, 7, 0, 50⟩], 1, 3,
        Orient.portrait, GridStyle.none⟩,
        traceV2 ⟨[⟨1, 1, 100, 200⟩, ⟨2, 7, 0, 50⟩], 1, 3, Orient.portrait,
          GridStyle.none⟩⟩ := by
    rw [generatePdfV2_ok_iff]
    refine ⟨by norm_num, by norm_num, by norm_num, ?_, rfl⟩
    norm_num +decide [cellWOf, cellHOf, usableWOf, usableHOf, pageSizeOf,
      A4_PORTRAIT, A4_LANDSCAPE, MARGIN_MM, GAP_MM]
  have hmain := c2_skip_policy _ _ hok
  refine ⟨hok, ?_, ?_⟩
  · rw [hmain.1]
    norm_num +decide [validDims, List.filter_cons]
  · rw [hmain.2]
    norm_num +decide [List.filter_cons]

/-- Counterexample for C2 as stated: two runs whose sets of skipped images
differ (`name 7` alone versus `names 7 and 8`) return identical values, so
the caller is not informed of the skipped items through any returned list;
the skip is only reported via console warnings. -/
theorem c2_counterexample :
    generatePdfV2 ⟨[⟨1, 1, 1000000, 1000000⟩, ⟨2, 7, 0, 50⟩], 1, 3,
        Orient.portrait, GridStyle.none⟩ =
      generatePdfV2 ⟨[⟨1, 1, 1000000, 1000000⟩, ⟨2, 7, 0, 50⟩, ⟨3, 8, -4, 50⟩],
        1, 3, Orient.portrait, GridStyle.none⟩ ∧
    skippedNames ⟨[⟨1, 1, 1000000, 1000000⟩, ⟨2, 7, 0, 50⟩], 1, 3,
        Orient.portrait, GridStyle.none⟩ = [7] ∧
    skippedNames ⟨[⟨1, 1, 1000000, 1000000⟩, ⟨2, 7, 0, 50⟩, ⟨3, 8, -4, 50⟩],
        1, 3, Orient.portrait, GridStyle.none⟩ = [7, 8] := by
  refine ⟨?_, ?_, ?_⟩
  · norm_num +decide [generatePdfV2, traceV2, pageCountOf, imagesPerPageOf,
      genPageV2, placeImagesV2, placeInstr, placeRect, calculateImageRenderSize,
      lineInstrs, cellWOf, cellHOf, usableWOf, usableHOf, pageSizeOf, A4_PORTRAIT,
      A4_LANDSCAPE, MARGIN_MM, GAP_MM, PX_PER_MM, Int.toNat_ofNat, List.range_succ]
  · norm_num +decide [skippedNames, pageCountOf, imagesPerPageOf, cellWOf,
      cellHOf, usableWOf, usableHOf, pageSizeOf, A4_PORTRAIT, MARGIN_MM, GAP_MM,
      Int.toNat_ofNat, List.range_succ, List.filterMap_cons]
  · norm_num +decide [skippedNames, pageCountOf, imagesPerPageOf, cellWOf,
      cellHOf, usableWOf, usableHOf, pageSizeOf, A4_PORTRAIT, MARGIN_MM, GAP_MM,
      Int.toNat_ofNat, List.range_succ, List.filterMap_cons]

/-- C6: when every image has positive intrinsic dimensions, the output
places the images in exactly the input order (identity permutation on the
payload sequence), page `p` receives the slice
`images[p*ipp .. min((p+1)*ipp, N))`, and local index `i` of a page is
placed in cell `(row = i div cols, col = i mod cols)` (row-major). -/
theorem c6_row_major_order (a : GenArgs)
    (hall : ∀ img ∈ a.images, validDims img) :
    (∀ r, generatePdfV2 a = Except.ok r →
      imagePayloads r.instrs = a.images.map ImgIn.dataUrl) ∧
    (∀ page, imagePayloads (genPageV2 a.images a.rows.toNat a.cols.toNat
        (cellWOf a.orient a.cols) (cellHOf a.orient a.rows)
        (pageSizeOf a.orient).width (pageSizeOf a.orient).height
        a.gridStyle page) =
      ((a.images.drop (page * (a.rows.toNat * a.cols.toNat))).take
        (a.rows.toNat * a.cols.toNat)).map ImgIn.dataUrl) ∧
    (∀ (img : ImgIn) (li cols : ℕ) (cW cH : ℚ),
      placeInstr img li cols cW cH = Instr.addImage img.dataUrl
        (MARGIN_MM + ((li % cols : ℕ) : ℚ) * (cW + GAP_MM) +
          (cW - (calculateImageRenderSize img.wPx img.hPx cW cH).1) / 2)
        (MARGIN_MM + ((li / cols : ℕ) : ℚ) * (cH + GAP_MM) +
          (cH - (calculateImageRenderSize img.wPx img.hPx cW cH).2) / 2)
        (calculateImageRenderSize img.wPx img.hPx cW cH).1
        (calculateImageRenderSize img.wPx img.hPx cW cH).2) := by
  refine ⟨?_, ?_, fun img li cols cW cH => rfl⟩
  · intro r hok
    rw [generatePdfV2_ok_iff] at hok
    obtain ⟨h1, h2, h3, h4, rfl⟩ := hok
    have hipp : 0 < imagesPerPageOf a := by
      have hm1 : 0 < a.rows.toNat := by omega
      have hm2 : 0 < a.cols.toNat := by omega
      exact Nat.mul_pos hm1 hm2
    show imagePayloads (traceV2 a) = _
    rw [imagePayloads_traceV2 a hipp,
      List.filter_eq_self.mpr fun img hm => by simpa using hall img hm]
  · intro page
    rw [imagePayloads_genPageV2,
      List.filter_eq_self.mpr fun img hm => by
        simpa using hall img (List.mem_of_mem_drop (List.mem_of_mem_take hm))]

/-- Witness for C6 at the spec scenario: 5 valid images on a 2 x 2
portrait grid come out in input order. -/
theorem c6_row_major_order_witness :
    imagePayloads (traceV2 ⟨[⟨0, 0, 10, 10⟩, ⟨1, 1, 10, 10⟩, ⟨2, 2, 10, 10⟩,
        ⟨3, 3, 10, 10⟩, ⟨4, 4, 10, 10⟩], 2, 2, Orient.portrait,
        GridStyle.solid⟩) = [0, 1, 2, 3, 4] := by
  have hall : ∀ img ∈ ([⟨0, 0, 10, 10⟩, ⟨1, 1, 10, 10⟩, ⟨2, 2, 10, 10⟩,
      ⟨3, 3, 10, 10⟩, ⟨4, 4, 10, 10⟩] : List ImgIn), validDims img := by
    intro img hm
    fin_cases hm <;> constructor <;> norm_num
  have hok : generatePdfV2 ⟨[⟨0, 0, 10, 10⟩, ⟨1, 1, 10, 10⟩, ⟨2, 2, 10, 10⟩,
      ⟨3, 3, 10, 10⟩, ⟨4, 4, 10, 10⟩], 2, 2, Orient.portrait, GridStyle.solid⟩ =
      Except.ok ⟨pageCountOf ⟨[⟨0, 0, 10, 10⟩, ⟨1, 1, 10, 10⟩, ⟨2, 2, 10, 10⟩,
          ⟨3, 3, 10, 10⟩, ⟨4, 4, 10, 10⟩], 2, 2, Orient.portrait, GridStyle.solid⟩,
        traceV2 ⟨[⟨0, 0, 10, 10⟩, ⟨1, 1, 10, 10⟩, ⟨2, 2, 10, 10⟩, ⟨3, 3, 10, 10⟩,
          ⟨4, 4, 10, 10⟩], 2, 2, Orient.portrait, GridStyle.solid⟩⟩ := by
    rw [generatePdfV2_ok_iff]
    refine ⟨by norm_num, by norm_num, by norm_num, ?_, rfl⟩
    norm_num +decide [cellWOf, cellHOf, usableWOf, usableHOf, pageSizeOf,
      A4_PORTRAIT, A4_LANDSCAPE, MARGIN_MM, GAP_MM]
  have h := (c6_row_major_order ⟨[⟨0, 0, 10, 10⟩, ⟨1, 1, 10, 10⟩, ⟨2, 2, 10, 10⟩,
    ⟨3, 3, 10, 10⟩, ⟨4, 4, 10, 10⟩], 2, 2, Orient.portrait,
    GridStyle.solid⟩ hall).1 _ hok
  exact h.trans rfl

/-- C7: on every successful run with a separator style other than `none`,
vertical line `k` (for `1 <= k <= cols-1`) is drawn at
`x = margin + k*cellW + (k-1)*gap + gap/2` spanning from `y = margin` to
`y = pageH - margin`, and horizontal line `r` symmetrically at
`y = margin + r*cellH + (r-1)*gap + gap/2` spanning from `x = margin` to
`x = pageW - margin`. -/
theorem c7_separator_geometry (a : GenArgs) (hs : a.gridStyle ≠ GridStyle.none) :
    ∀ r, generatePdfV2 a = Except.ok r →
      (∀ k : ℕ, 1 ≤ k → k < a.cols.toNat →
        Instr.drawLine
          (MARGIN_MM + (k : ℚ) * cellWOf a.orient a.cols +
            ((k : ℚ) - 1) * GAP_MM + GAP_MM / 2) MARGIN_MM
          (MARGIN_MM + (k : ℚ) * cellWOf a.orient a.cols +
            ((k : ℚ) - 1) * GAP_MM + GAP_MM / 2)
          ((pageSizeOf a.orient).height - MARGIN_MM) ∈ r.instrs) ∧
      (∀ k : ℕ, 1 ≤ k → k < a.rows.toNat →
        Instr.drawLine MARGIN_MM
          (MARGIN_MM + (k : ℚ) * cellHOf a.orient a.rows +
            ((k : ℚ) - 1) * GAP_MM + GAP_MM / 2)
          ((pageSizeOf a.orient).width - MARGIN_MM)
          (MARGIN_MM + (k : ℚ) * cellHOf a.orient a.rows +
            ((k : ℚ) - 1) * GAP_MM + GAP_MM / 2) ∈ r.instrs) := by
  intro r hok
  rw [generatePdfV2_ok_iff] at hok
  obtain ⟨h1, h2, h3, h4, rfl⟩ := hok
  have hipp : 0 < imagesPerPageOf a := by
    have hm1 : 0 < a.rows.toNat := by omega
    have hm2 : 0 < a.cols.toNat := by omega
    exact Nat.mul_pos hm1 hm2
  have hpc : 0 < pageCountOf a := by
    unfold pageCountOf
    have : 1 ≤ (a.images.length + imagesPerPageOf a - 1) / imagesPerPageOf a := by
      rw [Nat.le_div_iff_mul_le hipp]
      omega
    omega
  have hmem0 : ∀ {i : Instr}, i ∈ genPageV2 a.images a.rows.toNat a.cols.toNat
      (cellWOf a.orient a.cols) (cellHOf a.orient a.rows)
      (pageSizeOf a.orient).width (pageSizeOf a.orient).height
      a.gridStyle 0 → i ∈ traceV2 a := by
    intro i hi
    unfold traceV2
    exact List.mem_flatten.mpr ⟨_, List.mem_map_of_mem _ (List.mem_range.mpr hpc), hi⟩
  constructor
  · intro k hk1 hk2
    apply hmem0
    show _ ∈ genPageV2 _ _ _ _ _ _ _ _ _
    simp only [genPageV2]
    apply List.mem_append_right
    unfold lineInstrs
    rw [if_neg hs]
    exact List.mem_append_left _ (vLine_mem _ _ _ k hk1 hk2)
  · intro k hk1 hk2
    apply hmem0
    show _ ∈ genPageV2 _ _ _ _ _ _ _ _ _
    simp only [genPageV2]
    apply List.mem_append_right
    unfold lineInstrs
    rw [if_neg hs]
    exact List.mem_append_right _ (hLine_mem _ _ _ k hk1 hk2)

/-- Witness for C7: a 2 x 2 solid-grid run contains its single vertical
and single horizontal separator at the computed positions, spanning
margin to page edge minus margin. -/
theorem c7_separator_geometry_witness :
    Instr.drawLine
        (MARGIN_MM + (1 : ℚ) * cellWOf Orient.portrait 2 +
          ((1 : ℚ) - 1) * GAP_MM + GAP_MM / 2) MARGIN_MM
        (MARGIN_MM + (1 : ℚ) * cellWOf Orient.portrait 2 +
          ((1 : ℚ) - 1) * GAP_MM + GAP_MM / 2)
        ((pageSizeOf Orient.portrait).height - MARGIN_MM) ∈
      traceV2 ⟨[⟨1, 1, 10, 10⟩], 2, 2, Orient.portrait, GridStyle.solid⟩ ∧
    Instr.drawLine MARGIN_MM
        (MARGIN_MM + (1 : ℚ) * cellHOf Orient.portrait 2 +
          ((1 : ℚ) - 1) * GAP_MM + GAP_MM / 2)
        ((pageSizeOf Orient.portrait).width - MARGIN_MM)
        (MARGIN_MM + (1 : ℚ) * cellHOf Orient.portrait 2 +
          ((1 : ℚ) - 1) * GAP_MM + GAP_MM / 2) ∈
      traceV2 ⟨[⟨1, 1, 10, 10⟩], 2, 2, Orient.portrait, GridStyle.solid⟩ := by
  have hok : generatePdfV2 ⟨[⟨1, 1, 10, 10⟩], 2, 2, Orient.portrait,
      GridStyle.solid⟩ =
      Except.ok ⟨pageCountOf ⟨[⟨1, 1, 10, 10⟩], 2, 2, Orient.portrait,
          GridStyle.solid⟩,
        traceV2 ⟨[⟨1, 1, 10, 10⟩], 2, 2, Orient.portrait, GridStyle.solid⟩⟩ := by
    rw [generatePdfV2_ok_iff]
    refine ⟨by norm_num, by norm_num, by norm_num, ?_, rfl⟩
    norm_num +decide [cellWOf, cellHOf, usableWOf, usableHOf, pageSizeOf,
      A4_PORTRAIT, A4_LANDSCAPE, MARGIN_MM, GAP_MM]
  have h := c7_separator_geometry ⟨[⟨1, 1, 10, 10⟩], 2, 2, Orient.portrait,
    GridStyle.solid⟩ (fun hcon => GridStyle.noConfusion hcon) _ hok
  have hv := h.1 1 le_rfl (by decide)
  have hh := h.2 1 le_rfl (by decide)
  exact ⟨by exact_mod_cast hv, by exact_mod_cast hh⟩

/-- C8: on every successful run, every separator line is either vertical
with its x strictly between 0 and the page width, or horizontal with its y
strictly between 0 and the page height (no line on the outer border); and
for a 1 x 1 grid no line is emitted at all, whatever the style. -/
theorem c8_interior_lines_only (a : GenArgs) :
    ∀ r, generatePdfV2 a = Except.ok r →
      (∀ x1 y1 x2 y2 : ℚ, Instr.drawLine x1 y1 x2 y2 ∈ r.instrs →
        (x1 = x2 ∧ 0 < x1 ∧ x1 < (pageSizeOf a.orient).width) ∨
        (y1 = y2 ∧ 0 < y1 ∧ y1 < (pageSizeOf a.orient).height)) ∧
      (a.rows = 1 → a.cols = 1 →
        ∀ x1 y1 x2 y2 : ℚ, Instr.drawLine x1 y1 x2 y2 ∉ r.instrs) := by
  intro r hok
  rw [generatePdfV2_ok_iff] at hok
  obtain ⟨h1, h2, h3, h4, rfl⟩ := hok
  push_neg at h4
  obtain ⟨hcw, hch⟩ := h4
  have hgw : (a.cols.toNat : ℚ) * cellWOf a.orient a.cols +
      ((a.cols.toNat : ℚ) - 1) * GAP_MM =
      (pageSizeOf a.orient).width - 2 * MARGIN_MM := by
    rw [toNat_cast_q _ (by omega)]
    exact cell_geometry_w a.orient a.cols (by omega)
  have hgh : (a.rows.toNat : ℚ) * cellHOf a.orient a.rows +
      ((a.rows.toNat : ℚ) - 1) * GAP_MM =
      (pageSizeOf a.orient).height - 2 * MARGIN_MM := by
    rw [toNat_cast_q _ (by omega)]
    exact cell_geometry_h a.orient a.rows (by omega)
  have hline : ∀ {x1 y1 x2 y2 : ℚ}, Instr.drawLine x1 y1 x2 y2 ∈ traceV2 a →
      Instr.drawLine x1 y1 x2 y2 ∈ lineInstrs a.rows.toNat a.cols.toNat
        (cellWOf a.orient a.cols) (cellHOf a.orient a.rows)
        (pageSizeOf a.orient).width (pageSizeOf a.orient).height
        a.gridStyle := by
    intro x1 y1 x2 y2 h
    unfold traceV2 at h
    rcases List.mem_flatten.mp h with ⟨l, hl, hi⟩
    rcases List.mem_map.mp hl with ⟨page, -, rfl⟩
    exact drawLine_mem_genPageV2 _ _ _ _ _ _ _ _ _ hi
  constructor
  · intro x1 y1 x2 y2 hmem
    have h := hline hmem
    unfold lineInstrs at h
    split_ifs at h
    · exact absurd h (List.not_mem_nil _)
    · rcases List.mem_append.mp h with h | h
      · obtain ⟨k, hk1, hk2, heq⟩ := mem_vLines _ _ _ h
        simp only [Instr.drawLine.injEq] at heq
        obtain ⟨e1, e2, e3, e4⟩ := heq
        left
        obtain ⟨hb1, hb2⟩ := sepPos_bounds a.cols.toNat
          (cellWOf a.orient a.cols) (pageSizeOf a.orient).width
          k hk1 hk2 hcw hgw
        refine ⟨by rw [e1, e3], ?_, ?_⟩
        · rw [e1]; exact hb1
        · rw [e1]; exact hb2
      · obtain ⟨k, hk1, hk2, heq⟩ := mem_hLines _ _ _ h
        simp only [Instr.drawLine.injEq] at heq
        obtain ⟨e1, e2, e3, e4⟩ := heq
        right
        obtain ⟨hb1, hb2⟩ := sepPos_bounds a.rows.toNat
          (cellHOf a.orient a.rows) (pageSizeOf a.orient).height
          k hk1 hk2 hch hgh
        refine ⟨by rw [e2, e4], ?_, ?_⟩
        · rw [e2]; exact hb1
        · rw [e2]; exact hb2
  · intro hr1 hc1 x1 y1 x2 y2 hmem
    have h := hline hmem
    have hrn : a.rows.toNat = 1 := by omega
    have hcn : a.cols.toNat = 1 := by omega
    rw [hrn, hcn] at h
    unfold lineInstrs at h
    split_ifs at h
    · exact List.not_mem_nil _ h
    · simp [vLines, hLines] at h

/-- Witness for C8: a successful 1 x 1 dashed-grid run draws no line at
all; in particular the left page border is not drawn. -/
theorem c8_interior_lines_only_witness :
    Instr.drawLine 0 MARGIN_MM 0 ((pageSizeOf Orient.landscape).height - MARGIN_MM)
      ∉ traceV2 ⟨[⟨1, 1, 10, 10⟩], 1, 1, Orient.landscape, GridStyle.dashed⟩ := by
  have hok : generatePdfV2 ⟨[⟨1, 1, 10, 10⟩], 1, 1, Orient.landscape,
      GridStyle.dashed⟩ =
      Except.ok ⟨pageCountOf ⟨[⟨1, 1, 10, 10⟩], 1, 1, Orient.landscape,
          GridStyle.dashed⟩,
        traceV2 ⟨[⟨1, 1, 10, 10⟩], 1, 1, Orient.landscape, GridStyle.dashed⟩⟩ := by
    rw [generatePdfV2_ok_iff]
    refine ⟨by norm_num, by norm_num, by norm_num, ?_, rfl⟩
    norm_num +decide [cellWOf, cellHOf, usableWOf, usableHOf, pageSizeOf,
      A4_PORTRAIT, A4_LANDSCAPE, MARGIN_MM, GAP_MM]
  exact (c8_interior_lines_only ⟨[⟨1, 1, 10, 10⟩], 1, 1, Orient.landscape,
    GridStyle.dashed⟩ _ hok).2 rfl rfl 0 MARGIN_MM 0
    ((pageSizeOf Orient.landscape).height - MARGIN_MM)

/-- C10: on every input both versions accept (non-empty image list, all
intrinsic dimensions positive, rows >= 1, cols >= 1, positive resolved
cells), version 2 of `generatePdf` succeeds and emits exactly the same
sequence of page, image-placement and line-drawing instructions as
version 1. -/
theorem c10_versions_agree (a : GenArgs) (h1 : a.images ≠ [])
    (hr : 1 ≤ a.rows) (hc : 1 ≤ a.cols)
    (hcw : 0 < cellWOf a.orient a.cols)
    (hch : 0 < cellHOf a.orient a.rows)
    (hall : ∀ img ∈ a.images, validDims img) :
    ∃ r, generatePdfV2 a = Except.ok r ∧ r.instrs = generatePdfV1 a := by
  refine ⟨⟨pageCountOf a, traceV2 a⟩, ?_, ?_⟩
  · rw [generatePdfV2_ok_iff]
    refine ⟨fun h => h1 (List.length_eq_zero.mp h), by omega, by omega, ?_, rfl⟩
    push_neg
    exact ⟨hcw, hch⟩
  · exact traceV2_eq_generatePdfV1 a hall

/-- Witness for C10: for a single valid image on a 2 x 2 solid grid the
two versions emit the same instruction trace. -/
theorem c10_versions_agree_witness :
    traceV2 ⟨[⟨1, 1, 50, 50⟩], 2, 2, Orient.portrait, GridStyle.solid⟩ =
      generatePdfV1 ⟨[⟨1, 1, 50, 50⟩], 2, 2, Orient.portrait, GridStyle.solid⟩ := by
  have h := c10_versions_agree ⟨[⟨1, 1, 50, 50⟩], 2, 2, Orient.portrait,
      GridStyle.solid⟩
    (by simp) (by norm_num) (by norm_num)
    (by norm_num +decide [cellWOf, usableWOf, pageSizeOf, A4_PORTRAIT,
      A4_LANDSCAPE, MARGIN_MM, GAP_MM])
    (by norm_num +decide [cellHOf, usableHOf, pageSizeOf, A4_PORTRAIT,
      A4_LANDSCAPE, MARGIN_MM, GAP_MM])
    (by intro img hm
        rw [List.mem_singleton] at hm
        subst hm
        constructor <;> norm_num)
  obtain ⟨r, hr1, hr2⟩ := h
  have hok : generatePdfV2 ⟨[⟨1, 1, 50, 50⟩], 2, 2, Orient.portrait,
      GridStyle.solid⟩ =
      Except.ok ⟨pageCountOf ⟨[⟨1, 1, 50, 50⟩], 2, 2, Orient.portrait,
          GridStyle.solid⟩,
        traceV2 ⟨[⟨1, 1, 50, 50⟩], 2, 2, Orient.portrait, GridStyle.solid⟩⟩ := by
    rw [generatePdfV2_ok_iff]
    refine ⟨by norm_num, by norm_num, by norm_num, ?_, rfl⟩
    norm_num +decide [cellWOf, cellHOf, usableWOf, usableHOf, pageSizeOf,
      A4_PORTRAIT, A4_LANDSCAPE, MARGIN_MM, GAP_MM]
  have hre : r = ⟨pageCountOf ⟨[⟨1, 1, 50, 50⟩], 2, 2, Orient.portrait,
      GridStyle.solid⟩,
      traceV2 ⟨[⟨1, 1, 50, 50⟩], 2, 2, Orient.portrait, GridStyle.solid⟩⟩ := by
    have := hr1.symm.trans hok
    exact Except.ok.inj this
  rw [hre] at hr2
  exact hr2

end Img2Pdf
